import Mathlib

/-!
Verification development for the sample-profile ingestion and CFG annotation
engine of `gcc/tree-sample-profile.c` (gcc 4.4.0 sample-profile patch).

The C code is shallowly embedded: machine integers that stay nonnegative
(`gcov_type` frequencies, `unsigned` counters, line numbers) are modelled as
`Nat`; C strings resolved out of the profile string table are `List Char`;
the two libiberty hash tables are modelled as association lists with the
source's equality callbacks and "insert if absent" discipline; the profile
file together with its `fseek`/`fread` outcomes is an oracle structure whose
fields return `Option`/`Bool` (a `none`/`false` is a failed or short
seek/read at the corresponding step of the C reader).
-/

set_option autoImplicit false
set_option maxRecDepth 4000

namespace SP

/-- Constant `FB_INLINE_MAX_STACK` from tree-sample-profile.c. -/
def FB_INLINE_MAX_STACK : Nat := 200

/-- Constant `MAX_LINES_PER_BASIC_BLOCK` from tree-sample-profile.c. -/
def MAX_LINES_PER_BASIC_BLOCK : Nat := 500

/-- Constant `MIN_SAMPLE_BB_COUNT` from tree-sample-profile.c. -/
def MIN_SAMPLE_BB_COUNT : Nat := 5

/-- The NUL terminator of C strings inside the string table. -/
def nullChar : Char := Char.ofNat 0

/-- Resolve a string-table offset as the C string starting there, mirroring
`&(prog_unit->str_table[offset])` read up to the terminating NUL. -/
def resolve (tab : List Char) (off : Nat) : List Char :=
  (tab.drop off).takeWhile (fun c => c ≠ nullChar)

/-- C `struct fb_info_freq`: one on-disk per-line record
(line number, frequency, sampled-instruction count).  The header declaring
it is not part of the repository snapshot; fields are the ones the reader
accesses (`sample.line_num`, `sample.freq`, `sample.num_instr`). -/
structure fb_info_freq where
  line_num : Nat
  freq : Nat
  num_instr : Nat
deriving DecidableEq

/-- C `struct fb_info_inline_stack_entry`: one on-disk inline stack frame
(filename string-table offset, line number), per usage in
`read_inline_function`. -/
structure fb_info_inline_stack_entry where
  filename_offset : Nat
  line_num : Nat
deriving DecidableEq

/-- C `struct fb_sample_hdr` (file header): fields per usage in the reader.
Offsets are carried for completeness; seeking with them is absorbed into
the file oracle below. -/
structure fb_sample_hdr where
  fb_str_table_offset : Nat
  fb_str_table_size : Nat
  fb_func_hdr_offset : Nat
  fb_func_hdr_num : Nat
  fb_func_hdr_ent_size : Nat
  fb_profile_offset : Nat
deriving DecidableEq

/-- C `struct func_sample_hdr` (function / inline-group header): fields per
usage in `sp_reader` and `read_inline_function` (name and filename
string-table offsets, per-line record count, inline-group count, inline
depth, group total).  File offsets feeding only `fseek` are absorbed into
the file oracle. -/
structure func_sample_hdr where
  func_name_index : Nat
  filename_offset : Nat
  func_num_freq_entries : Nat
  func_num_inline_entries : Nat
  inline_depth : Nat
  total_samples : Nat
deriving DecidableEq

/-- C `struct sample_freq_detail`: a flat-index entry. -/
structure sample_freq_detail where
  filename : List Char
  func_name : List Char
  line_num : Nat
  freq : Nat
  num_instr : Nat
deriving DecidableEq

/-- C `struct sample_inline_freq`: an inline-index entry.  `inline_stack` is
the shared stack buffer (leaf first), `is_first` the buffer-ownership tag. -/
structure sample_inline_freq where
  depth : Nat
  inline_stack : List (List Char × Nat)
  func_name : List Char
  filename : List Char
  line_num : Nat
  freq : Nat
  num_instr : Nat
  is_first : Bool
deriving DecidableEq

/-- Function `sp_info_eq`: equality callback of the flat hash table — line number,
filename text and function-name text must all match. -/
def sp_info_eq (a b : sample_freq_detail) : Bool :=
  a.line_num == b.line_num && a.filename == b.filename && a.func_name == b.func_name

/-- The frame-comparison loop of `sp_inline_info_eq`: compare the first
`depth` stack frames (line, then file text) of the two records. -/
def stacks_eq : Nat → List (List Char × Nat) → List (List Char × Nat) → Bool
  | 0, _, _ => true
  | Nat.succ n, a :: as, b :: bs => (a.2 == b.2 && a.1 == b.1) && stacks_eq n as bs
  | Nat.succ _, _, _ => false

/-- Function `sp_inline_info_eq`: equality callback of the inline hash table —
leaf line number, stack depth, every stack frame, leaf filename and
function name must all match. -/
def sp_inline_info_eq (a b : sample_inline_freq) : Bool :=
  a.line_num == b.line_num && a.depth == b.depth
    && stacks_eq a.depth a.inline_stack b.inline_stack
    && a.filename == b.filename && a.func_name == b.func_name

/-- Model of `htab_find`: first entry equal (under the table's callback) to the key. -/
def htab_find {α : Type} (eqf : α → α → Bool) (tab : List α) (key : α) : Option α :=
  tab.find? (fun e => eqf e key)

/-- Model of `htab_find_slot (…, INSERT)` followed by the reader's
`if (*slot) inform (…) else *slot = x`: if an equal entry exists the table
is unchanged and the collision flag is `true` (a warning is printed);
otherwise the new entry is stored. -/
def htab_insert_if_absent {α : Type} (eqf : α → α → Bool) (tab : List α) (x : α) :
    List α × Bool :=
  match htab_find eqf tab x with
  | some _ => (tab, true)
  | none => (tab ++ [x], false)

/-- The profile file oracle: the parsed result (or failure) of each
`fseek`/`fread` the reader performs.  Indices: `i` = function-header index,
`k` = inline-group index within function `i`, `j` = per-line record index.
A `false`/`none` models a failed seek or a short/failed read at that step. -/
structure sp_file where
  open_ok : Bool
  file_header : Option fb_sample_hdr
  string_table_seek_ok : Bool
  string_table : Option (List Char)
  func_header : Nat → Option func_sample_hdr
  flat_seek_ok : Nat → Bool
  flat_rec : Nat → Nat → Option fb_info_freq
  inline_hdr_seek_ok : Nat → Nat → Bool
  inline_hdr : Nat → Nat → Option func_sample_hdr
  stack_seek_ok : Nat → Nat → Bool
  stack_entries : Nat → Nat → Option (List fb_info_inline_stack_entry)
  inline_rec_seek_ok : Nat → Nat → Bool
  inline_rec : Nat → Nat → Nat → Option fb_info_freq

/-- The reader's process-wide mutable state: the two hash tables
(`sp_htab`, `sp_inline_htab`) and the running maximum `sp_max_count`. -/
structure sp_state where
  sp_htab : List sample_freq_detail
  sp_inline_htab : List sample_inline_freq
  sp_max_count : Nat
deriving DecidableEq

/-- Initial reader state (empty tables, `sp_max_count = 0`). -/
def init_state : sp_state := ⟨[], [], 0⟩

/-- The flat record built for sample `s` of the function with header `fh`
(`sample_buf[j]` field assignments in `sp_reader`). -/
def flat_record (tab : List Char) (fh : func_sample_hdr) (s : fb_info_freq) :
    sample_freq_detail :=
  { filename := resolve tab fh.filename_offset
    func_name := resolve tab fh.func_name_index
    line_num := s.line_num
    freq := s.freq
    num_instr := s.num_instr }

/-- The per-line record loop of `sp_reader` (index `j`, `rem` records left):
a failed read aborts with flag `false` (the caller then returns 0);
otherwise build the record, update `sp_max_count` before the duplicate
check, insert if absent, and count only fresh insertions. -/
def read_flat_lines (f : sp_file) (tab : List Char) (i : Nat) (fh : func_sample_hdr) :
    Nat → Nat → sp_state → Nat → sp_state × Nat × Bool
  | _, 0, st, ns => (st, ns, true)
  | j, rem + 1, st, ns =>
    match f.flat_rec i j with
    | none => (st, ns, false)
    | some s =>
      let r := flat_record tab fh s
      let maxc := if s.freq > st.sp_max_count then s.freq else st.sp_max_count
      let p := htab_insert_if_absent sp_info_eq st.sp_htab r
      read_flat_lines f tab i fh (j + 1) rem
        { st with sp_htab := p.1, sp_max_count := maxc }
        (if p.2 then ns else ns + 1)

/-- The in-memory stack buffer built from the `depth` on-disk frames:
`stack_buf[inline_depth - i - 1] = stack_entry[i]` — the disk stores the
stack leaf-last, memory holds it leaf-first. -/
def materialize_stack (tab : List Char) (depth : Nat)
    (es : List fb_info_inline_stack_entry) : List (List Char × Nat) :=
  (List.range depth).map (fun pos =>
    let e := es.getD (depth - 1 - pos) ⟨0, 0⟩
    (resolve tab e.filename_offset, e.line_num))

/-- The synthetic callsite-total record `inline_sample_buf[num_lines]`:
line 0, frequency = the group's `total_samples`, `num_instr` left at the
`xcalloc` zero, and — per line 497 of the source — `is_first = false`. -/
def inline_total_record (tab : List Char) (ih : func_sample_hdr)
    (sb : List (List Char × Nat)) : sample_inline_freq :=
  { depth := ih.inline_depth
    inline_stack := sb
    func_name := resolve tab ih.func_name_index
    filename := resolve tab ih.filename_offset
    line_num := 0
    freq := ih.total_samples
    num_instr := 0
    is_first := false }

/-- The per-line record `inline_sample_buf[j]` of an inline group:
`is_first` is set exactly on the first record (`j == 0`). -/
def inline_line_record (tab : List Char) (ih : func_sample_hdr)
    (sb : List (List Char × Nat)) (j : Nat) (s : fb_info_freq) : sample_inline_freq :=
  { depth := ih.inline_depth
    inline_stack := sb
    func_name := resolve tab ih.func_name_index
    filename := resolve tab ih.filename_offset
    line_num := s.line_num
    freq := s.freq
    num_instr := s.num_instr
    is_first := j == 0 }

/-- The per-line record loop of `read_inline_function` for one group:
a failed read aborts with flag `false` (the caller then returns the sample
count accumulated so far); `sp_max_count` is updated before the duplicate
check and only fresh insertions are counted. -/
def read_group_lines (f : sp_file) (tab : List Char) (i k : Nat)
    (ih : func_sample_hdr) (sb : List (List Char × Nat)) :
    Nat → Nat → sp_state → Nat → sp_state × Nat × Bool
  | _, 0, st, curr => (st, curr, true)
  | j, rem + 1, st, curr =>
    match f.inline_rec i k j with
    | none => (st, curr, false)
    | some s =>
      let r := inline_line_record tab ih sb j s
      let maxc := if s.freq > st.sp_max_count then s.freq else st.sp_max_count
      let p := htab_insert_if_absent sp_inline_info_eq st.sp_inline_htab r
      read_group_lines f tab i k ih sb (j + 1) rem
        { st with sp_inline_htab := p.1, sp_max_count := maxc }
        (if p.2 then curr else curr + 1)

/-- Function `read_inline_function`: loop over the `rem` remaining inline groups of
function `i` (current group index `k`).  Any failed seek/read returns the
sample count accumulated so far (NOT 0) and abandons only the remaining
groups of this function; a group whose per-line record count is 0 is
skipped entirely (`continue`) before anything is inserted; otherwise the
synthetic callsite-total record is inserted first, then the per-line
records.  (`gcc_assert (inline_depth < FB_INLINE_MAX_STACK)` and
`gcc_assert (inline_depth > 0)` are compiler-abort checks; theorems that
need them take them as hypotheses.) -/
def read_inline_function (f : sp_file) (tab : List Char) (i : Nat) :
    Nat → Nat → sp_state → Nat → sp_state × Nat
  | _, 0, st, curr => (st, curr)
  | k, rem + 1, st, curr =>
    if f.inline_hdr_seek_ok i k then
      match f.inline_hdr i k with
      | none => (st, curr)
      | some ih =>
        if ih.func_num_freq_entries = 0 then
          read_inline_function f tab i (k + 1) rem st curr
        else
          if f.stack_seek_ok i k then
            match f.stack_entries i k with
            | none => (st, curr)
            | some es =>
              if es.length = ih.inline_depth then
                let sb := materialize_stack tab ih.inline_depth es
                if f.inline_rec_seek_ok i k then
                  let tot := inline_total_record tab ih sb
                  let p := htab_insert_if_absent sp_inline_info_eq st.sp_inline_htab tot
                  let q := read_group_lines f tab i k ih sb 0 ih.func_num_freq_entries
                    { st with sp_inline_htab := p.1 } curr
                  if q.2.2 then read_inline_function f tab i (k + 1) rem q.1 q.2.1
                  else (q.1, q.2.1)
                else (st, curr)
              else (st, curr)
          else (st, curr)
    else (st, curr)

/-- The per-function loop of `sp_reader`: a failed function-header read or
flat seek/read returns 0 (keeping the state built so far); after the flat
records, the inline sections are read when `func_num_inline_entries > 0`,
and the loop continues with the next function regardless of inline-section
errors. -/
def sp_reader_funcs (f : sp_file) (tab : List Char) :
    Nat → Nat → sp_state → Nat → sp_state × Nat
  | _, 0, st, ns => (st, ns)
  | i, rem + 1, st, ns =>
    match f.func_header i with
    | none => (st, 0)
    | some fh =>
      if f.flat_seek_ok i then
        let q := read_flat_lines f tab i fh 0 fh.func_num_freq_entries st ns
        if q.2.2 then
          let p :=
            if fh.func_num_inline_entries > 0 then
              read_inline_function f tab i 0 fh.func_num_inline_entries q.1 q.2.1
            else (q.1, q.2.1)
          sp_reader_funcs f tab (i + 1) rem p.1 p.2
        else (q.1, 0)
      else (st, 0)

/-- Function `sp_reader`: open the file, read the file header and the string table
(checking the declared size), then run the per-function loop.  Any failure
up to and including the string table yields 0 samples. -/
def sp_reader (f : sp_file) : sp_state × Nat :=
  if f.open_ok then
    match f.file_header with
    | none => (init_state, 0)
    | some hdr =>
      if f.string_table_seek_ok then
        match f.string_table with
        | none => (init_state, 0)
        | some tab =>
          if tab.length = hdr.fb_str_table_size then
            sp_reader_funcs f tab 0 hdr.fb_func_hdr_num init_state 0
          else (init_state, 0)
      else (init_state, 0)
  else (init_state, 0)

/-- The scope-walking loop of `sp_get_inline_stack`: walk the enclosing
lexical scopes outward (`scope_locs` is the chain of
`BLOCK_SOURCE_LOCATION`s starting at `BLOCK_SUPERCONTEXT` of the
statement's block; 0 is the absent location), skipping scopes whose
location is 0 or equal to the last recorded location, and record
`expand_location` of every other one.  The source writes each recorded
frame into a caller-provided fixed array with NO bounds check; the list
returned here is the exact sequence of writes the C loop performs. -/
def sp_walk_scopes (expand : Nat → List Char × Nat) :
    Nat → List Nat → List (List Char × Nat)
  | _, [] => []
  | last_loc, loc :: rest =>
    if loc = 0 ∨ loc = last_loc then sp_walk_scopes expand last_loc rest
    else expand loc :: sp_walk_scopes expand loc rest

/-- Function `sp_get_inline_stack`: a statement with no enclosing `BLOCK` yields
depth 0; otherwise walk the scope chain with `last_loc` starting at 0. -/
def sp_get_inline_stack (expand : Nat → List Char × Nat) (has_block : Bool)
    (scope_locs : List Nat) : List (List Char × Nat) :=
  if has_block then sp_walk_scopes expand 0 scope_locs else []

/-- A GIMPLE statement as `sp_annotate_bb` consumes it: `get_lineno`
result (−1 = no location), `gimple_filename`, whether it has an enclosing
`BLOCK`, and the source locations of the enclosing scope chain. -/
structure gimple_stmt where
  lineno : Int
  filename : List Char
  has_block : Bool
  scope_locs : List Nat
deriving DecidableEq

/-- The accumulator of `sp_annotate_bb`'s statement loop: the `lines` /
`lines_inline` dedup arrays (the tables contain no two entries equal as
values, so value identity coincides with the source's pointer identity),
the frequency and instruction sums, the per-block max and `num_ir`. -/
structure bb_accum where
  lines : List sample_freq_detail
  lines_inline : List sample_inline_freq
  sum_ir_count : Nat
  num_instr_sampled : Nat
  bb_max_count : Nat
  num_ir : Nat
deriving DecidableEq

/-- Initial accumulator of `sp_annotate_bb`. -/
def bb_accum.init : bb_accum := ⟨[], [], 0, 0, 0, 0⟩

/-- The inline lookup key built for a statement
(`inline_loc` in `sp_annotate_bb`; the fields not in the key are the
`xcalloc`-style zeros). -/
def inline_lookup_key (stack : List (List Char × Nat)) (func_name : List Char)
    (stmt : gimple_stmt) : sample_inline_freq :=
  { depth := stack.length
    inline_stack := stack
    func_name := func_name
    filename := stmt.filename
    line_num := stmt.lineno.toNat
    freq := 0
    num_instr := 0
    is_first := false }

/-- The flat lookup key built for a statement (`ir_loc` in
`sp_annotate_bb`). -/
def flat_lookup_key (func_name : List Char) (stmt : gimple_stmt) :
    sample_freq_detail :=
  { filename := stmt.filename
    func_name := func_name
    line_num := stmt.lineno.toNat
    freq := 0
    num_instr := 0 }

/-- One iteration of `sp_annotate_bb`'s statement loop: skip statements
with no line; reconstruct the inline stack; query the inline table when
the stack is non-empty, the flat table otherwise; skip misses and records
already counted for this block; otherwise accumulate frequency sum,
instruction-count sum and per-block max. -/
def sp_annotate_bb_step (expand : Nat → List Char × Nat) (func_name : List Char)
    (flat_tab : List sample_freq_detail) (inline_tab : List sample_inline_freq)
    (acc : bb_accum) (stmt : gimple_stmt) : bb_accum :=
  if stmt.lineno = -1 then acc
  else
    let acc := { acc with num_ir := acc.num_ir + 1 }
    let stack := sp_get_inline_stack expand stmt.has_block stmt.scope_locs
    if stack.length > 0 then
      match htab_find sp_inline_info_eq inline_tab (inline_lookup_key stack func_name stmt) with
      | none => acc
      | some e =>
        if e ∈ acc.lines_inline then acc
        else
          { acc with
            lines_inline := acc.lines_inline ++ [e]
            sum_ir_count := acc.sum_ir_count + e.freq
            num_instr_sampled := acc.num_instr_sampled + e.num_instr
            bb_max_count := max acc.bb_max_count e.freq }
    else
      match htab_find sp_info_eq flat_tab (flat_lookup_key func_name stmt) with
      | none => acc
      | some e =>
        if e ∈ acc.lines then acc
        else
          { acc with
            lines := acc.lines ++ [e]
            sum_ir_count := acc.sum_ir_count + e.freq
            num_instr_sampled := acc.num_instr_sampled + e.num_instr
            bb_max_count := max acc.bb_max_count e.freq }

/-- Function `sp_annotate_bb`: run the statement loop over the block and derive
`bb->count = sum_ir_count / num_instr_sampled` (integer division) when
`num_instr_sampled > 0`, else 0. -/
def sp_annotate_bb (expand : Nat → List Char × Nat) (func_name : List Char)
    (flat_tab : List sample_freq_detail) (inline_tab : List sample_inline_freq)
    (stmts : List gimple_stmt) : Nat :=
  let acc := stmts.foldl (sp_annotate_bb_step expand func_name flat_tab inline_tab) bb_accum.init
  if acc.num_instr_sampled > 0 then acc.sum_ir_count / acc.num_instr_sampled else 0

/-- The usability decision and reset of `sp_annotate_cfg` over the
computed per-block counts of the real basic blocks (`FOR_EACH_BB`
iterates the real blocks; GCC's `n_basic_blocks` additionally counts the
artificial ENTRY and EXIT blocks, hence `counts.length + 2`).  Usable:
smoothing runs and the profile summary is published (flag `true`, counts
handed on unchanged); not usable: every block count is reset to 0. -/
def sp_annotate_cfg_decide (counts : List Nat) : List Nat × Bool :=
  let num_bb_annotated := counts.countP (fun c => c ≠ 0)
  let n_basic_blocks := counts.length + 2
  if num_bb_annotated > 1 ∨ (num_bb_annotated = 1 ∧ n_basic_blocks < MIN_SAMPLE_BB_COUNT)
  then (counts, true)
  else (counts.map (fun _ => 0), false)

/-- Function `sp_annotate_cfg`: annotate every real basic block with
`sp_annotate_bb`, then apply the usability decision. -/
def sp_annotate_cfg (expand : Nat → List Char × Nat) (func_name : List Char)
    (flat_tab : List sample_freq_detail) (inline_tab : List sample_inline_freq)
    (bbs : List (List gimple_stmt)) : List Nat × Bool :=
  sp_annotate_cfg_decide (bbs.map (sp_annotate_bb expand func_name flat_tab inline_tab))

/-! ## Specification-side functions

The following definitions restate, independently of the reader's and
annotator's accumulators, what the claims say the code computes; the
theorems below relate them to the embedded code. -/

/-- The match of one statement against the two indices, mirroring the
lookup (but not the accumulation) of `sp_annotate_bb`:
`Sum.inl` = flat-table hit, `Sum.inr` = inline-table hit. -/
def bb_match (expand : Nat → List Char × Nat) (func_name : List Char)
    (flat_tab : List sample_freq_detail) (inline_tab : List sample_inline_freq)
    (stmt : gimple_stmt) : Option (sample_freq_detail ⊕ sample_inline_freq) :=
  if stmt.lineno = -1 then none
  else
    let stack := sp_get_inline_stack expand stmt.has_block stmt.scope_locs
    if stack.length > 0 then
      (htab_find sp_inline_info_eq inline_tab (inline_lookup_key stack func_name stmt)).map Sum.inr
    else
      (htab_find sp_info_eq flat_tab (flat_lookup_key func_name stmt)).map Sum.inl

/-- Keep the first occurrence of every element, dropping the elements of
`seen` and later duplicates. -/
def first_occurrences {α : Type} [DecidableEq α] (seen : List α) : List α → List α
  | [] => []
  | x :: xs =>
    if x ∈ seen then first_occurrences seen xs
    else x :: first_occurrences (x :: seen) xs

/-- Frequency of a matched record (either index). -/
def match_freq : sample_freq_detail ⊕ sample_inline_freq → Nat
  | Sum.inl r => r.freq
  | Sum.inr r => r.freq

/-- Sampled-instruction count of a matched record (either index). -/
def match_instr : sample_freq_detail ⊕ sample_inline_freq → Nat
  | Sum.inl r => r.num_instr
  | Sum.inr r => r.num_instr

/-- The freqs of the flat per-line records of function `i` that the reader
reads, starting at record `j` with `rem` to go, together with whether all
of them were read; defined from the file alone, with no reference to the
index state (so records whose keys turn out to be duplicates are
included). -/
def flat_freqs (f : sp_file) (i : Nat) : Nat → Nat → List Nat × Bool
  | _, 0 => ([], true)
  | j, rem + 1 =>
    match f.flat_rec i j with
    | none => ([], false)
    | some s =>
      let p := flat_freqs f i (j + 1) rem
      (s.freq :: p.1, p.2)

/-- The freqs of the per-line records of inline group `k` of function `i`
that the reader reads, with the all-read flag; again defined with no
reference to the index state. -/
def group_freqs (f : sp_file) (i k : Nat) : Nat → Nat → List Nat × Bool
  | _, 0 => ([], true)
  | j, rem + 1 =>
    match f.inline_rec i k j with
    | none => ([], false)
    | some s =>
      let p := group_freqs f i k (j + 1) rem
      (s.freq :: p.1, p.2)

/-- The per-line freqs read from the inline sections of function `i`
(group totals are NOT included, matching the absence of an
`sp_max_count` update at the synthetic record). -/
def inline_freqs (f : sp_file) (i : Nat) : Nat → Nat → List Nat
  | _, 0 => []
  | k, rem + 1 =>
    if f.inline_hdr_seek_ok i k then
      match f.inline_hdr i k with
      | none => []
      | some ih =>
        if ih.func_num_freq_entries = 0 then inline_freqs f i (k + 1) rem
        else
          if f.stack_seek_ok i k then
            match f.stack_entries i k with
            | none => []
            | some es =>
              if es.length = ih.inline_depth then
                if f.inline_rec_seek_ok i k then
                  let p := group_freqs f i k 0 ih.func_num_freq_entries
                  p.1 ++ (if p.2 then inline_freqs f i (k + 1) rem else [])
                else []
              else []
          else []
    else []

/-- All per-line freqs (flat and inline) the reader reads, function by
function, along exactly the reader's control flow. -/
def func_freqs (f : sp_file) : Nat → Nat → List Nat
  | _, 0 => []
  | i, rem + 1 =>
    match f.func_header i with
    | none => []
    | some fh =>
      if f.flat_seek_ok i then
        let q := flat_freqs f i 0 fh.func_num_freq_entries
        if q.2 then
          q.1
            ++ (if fh.func_num_inline_entries > 0 then
                  inline_freqs f i 0 fh.func_num_inline_entries
                else [])
            ++ func_freqs f (i + 1) rem
        else q.1
      else []

/-- All per-line freqs a full `sp_reader` run reads from file `f`. -/
def sp_file_freqs (f : sp_file) : List Nat :=
  if f.open_ok then
    match f.file_header with
    | none => []
    | some hdr =>
      if f.string_table_seek_ok then
        match f.string_table with
        | none => []
        | some tab =>
          if tab.length = hdr.fb_str_table_size then
            func_freqs f 0 hdr.fb_func_hdr_num
          else []
      else []
  else []

/-- The per-line records `inline_sample_buf[0..num_lines-1]` built for one
inline group from the on-disk samples, starting at index `j`. -/
def group_line_records (tab : List Char) (ih : func_sample_hdr)
    (sb : List (List Char × Nat)) : Nat → List fb_info_freq → List sample_inline_freq
  | _, [] => []
  | j, s :: ss => inline_line_record tab ih sb j s :: group_line_records tab ih sb (j + 1) ss

/-- The full contents of `inline_sample_buf` for one inline group: the
synthetic callsite-total record at index `num_lines` plus the per-line
records — exactly the records that share the group's stack buffer `sb`.
(The source stores the total at the END of the buffer but INSERTS it
first; the list order here is insertion order.) -/
def group_buf_records (tab : List Char) (ih : func_sample_hdr)
    (sb : List (List Char × Nat)) (samples : List fb_info_freq) :
    List sample_inline_freq :=
  inline_total_record tab ih sb :: group_line_records tab ih sb 0 samples

/-! ## Concrete inputs for counterexamples and witnesses -/

/-- A string table holding the function name `f` (offset 0) and the file
name `a` (offset 2). -/
def ex_tab : List Char := ['f', nullChar, 'a', nullChar]

/-- A trivial `expand_location` for examples. -/
def ex_expand : Nat → List Char × Nat := fun loc => ([], loc)

/-- Claim C1 example: the one flat sample record of function `f`,
file `a`, line 5, frequency 7, 1 sampled instruction. -/
def c1_flat : List sample_freq_detail := [⟨['a'], ['f'], 5, 7, 1⟩]

/-- Claim C1 example: a statement at line 5 of file `a`, not inlined. -/
def c1_stmt : gimple_stmt := ⟨5, ['a'], false, []⟩

/-- Claim C2 example: flat records {line 10, freq 10, 2 instr} and
{line 20, freq 30, 3 instr} of function `f` in file `a`. -/
def c2_flat : List sample_freq_detail :=
  [⟨['a'], ['f'], 10, 10, 2⟩, ⟨['a'], ['f'], 20, 30, 3⟩]

/-- Claim C2 example: a block whose statements hit line 10, line 20 and
line 10 again (the third statement maps to a record already counted). -/
def c2_stmts : List gimple_stmt :=
  [⟨10, ['a'], false, []⟩, ⟨20, ['a'], false, []⟩, ⟨10, ['a'], false, []⟩]

/-- Claim C2 example: a block whose only statement matches no record. -/
def c2_stmts_none : List gimple_stmt := [⟨99, ['a'], false, []⟩]

/-- Claim C3 counterexample: the function header of the one profiled
function — 1 flat record, 1 inline group. -/
def c3_fh : func_sample_hdr := ⟨0, 2, 1, 1, 0, 0⟩

/-- Claim C3 counterexample: a profile file whose flat record is read
fine but whose inline-group header seek fails. -/
def c3_file : sp_file :=
  { open_ok := true
    file_header := some ⟨0, 4, 0, 1, 0, 0⟩
    string_table_seek_ok := true
    string_table := some ex_tab
    func_header := fun i => if i = 0 then some c3_fh else none
    flat_seek_ok := fun _ => true
    flat_rec := fun i j => if i = 0 ∧ j = 0 then some ⟨5, 7, 1⟩ else none
    inline_hdr_seek_ok := fun _ _ => false
    inline_hdr := fun _ _ => none
    stack_seek_ok := fun _ _ => true
    stack_entries := fun _ _ => none
    inline_rec_seek_ok := fun _ _ => true
    inline_rec := fun _ _ _ => none }

/-- Claim C4 counterexample: a profile file with one function carrying no
flat records and one inline group of depth 1 with a single per-line
record (line 3, freq 7, 2 instr) and a group total of 10. -/
def c4_file : sp_file :=
  { open_ok := true
    file_header := some ⟨0, 4, 0, 1, 0, 0⟩
    string_table_seek_ok := true
    string_table := some ex_tab
    func_header := fun i => if i = 0 then some ⟨0, 2, 0, 1, 0, 0⟩ else none
    flat_seek_ok := fun _ => true
    flat_rec := fun _ _ => none
    inline_hdr_seek_ok := fun _ _ => true
    inline_hdr := fun i k => if i = 0 ∧ k = 0 then some ⟨0, 2, 1, 0, 1, 10⟩ else none
    stack_seek_ok := fun _ _ => true
    stack_entries := fun i k => if i = 0 ∧ k = 0 then some [⟨2, 4⟩] else none
    inline_rec_seek_ok := fun _ _ => true
    inline_rec := fun i k j => if i = 0 ∧ k = 0 ∧ j = 0 then some ⟨3, 7, 2⟩ else none }

/-- The synthetic callsite-total record `c4_file`'s group produces. -/
def c4_total : sample_inline_freq := ⟨1, [(['a'], 4)], ['f'], ['a'], 0, 10, 0, false⟩

/-- The (first and only) per-line record `c4_file`'s group produces. -/
def c4_line : sample_inline_freq := ⟨1, [(['a'], 4)], ['f'], ['a'], 3, 7, 2, true⟩

/-- Claim C5 failing input: a scope chain of 201 enclosing blocks with
pairwise distinct nonzero source locations. -/
def c5_locs : List Nat := (List.range (FB_INLINE_MAX_STACK + 1)).map (fun n => n + 1)

/-- Claim C6 witness input: two on-disk stack frames, leaf-last. -/
def c6_entries : List fb_info_inline_stack_entry := [⟨0, 10⟩, ⟨2, 20⟩]

/-- Claim C7 example: a profile file whose one function has two flat
records with the SAME key (file `a`, function `f`, line 5) and different
frequencies (7 first, then 50). -/
def c7_file : sp_file :=
  { open_ok := true
    file_header := some ⟨0, 4, 0, 1, 0, 0⟩
    string_table_seek_ok := true
    string_table := some ex_tab
    func_header := fun i => if i = 0 then some ⟨0, 2, 2, 0, 0, 0⟩ else none
    flat_seek_ok := fun _ => true
    flat_rec := fun i j =>
      if i = 0 ∧ j = 0 then some ⟨5, 7, 1⟩
      else if i = 0 ∧ j = 1 then some ⟨5, 50, 9⟩
      else none
    inline_hdr_seek_ok := fun _ _ => true
    inline_hdr := fun _ _ => none
    stack_seek_ok := fun _ _ => true
    stack_entries := fun _ _ => none
    inline_rec_seek_ok := fun _ _ => true
    inline_rec := fun _ _ _ => none }

/-- The first-inserted flat record of `c7_file` (frequency 7). -/
def c7_first : sample_freq_detail := ⟨['a'], ['f'], 5, 7, 1⟩

/-- Claim C8 witness inputs: two inline records sharing the leaf
(file `a`, function `f`, line 3) but with different call-stack depths. -/
def c8_a : sample_inline_freq := ⟨1, [(['a'], 4)], ['f'], ['a'], 3, 7, 2, true⟩

/-- See `c8_a`: same leaf, depth 2. -/
def c8_b : sample_inline_freq := ⟨2, [(['a'], 4), (['a'], 9)], ['f'], ['a'], 3, 7, 2, true⟩

/-- Claim C9 example: one function with two duplicate-keyed flat records
(freq 7 first, then 50) and one inline group whose synthetic total is 999
and whose only per-line record has freq 5. -/
def c9_file : sp_file :=
  { open_ok := true
    file_header := some ⟨0, 4, 0, 1, 0, 0⟩
    string_table_seek_ok := true
    string_table := some ex_tab
    func_header := fun i => if i = 0 then some ⟨0, 2, 2, 1, 0, 0⟩ else none
    flat_seek_ok := fun _ => true
    flat_rec := fun i j =>
      if i = 0 ∧ j = 0 then some ⟨5, 7, 1⟩
      else if i = 0 ∧ j = 1 then some ⟨5, 50, 9⟩
      else none
    inline_hdr_seek_ok := fun _ _ => true
    inline_hdr := fun i k => if i = 0 ∧ k = 0 then some ⟨0, 2, 1, 0, 1, 999⟩ else none
    stack_seek_ok := fun _ _ => true
    stack_entries := fun i k => if i = 0 ∧ k = 0 then some [⟨2, 4⟩] else none
    inline_rec_seek_ok := fun _ _ => true
    inline_rec := fun i k j => if i = 0 ∧ k = 0 ∧ j = 0 then some ⟨3, 5, 2⟩ else none }

/-- The synthetic total record of `c9_file`'s inline group (freq 999). -/
def c9_total : sample_inline_freq := ⟨1, [(['a'], 4)], ['f'], ['a'], 0, 999, 0, false⟩

/-- The first-inserted flat record of `c9_file` (freq 7; the duplicate
with freq 50 is discarded by first-insert-wins). -/
def c9_first : sample_freq_detail := ⟨['a'], ['f'], 5, 7, 1⟩

/-- Claim C10 witness input: a file whose one inline group has a zero
per-line record count yet a nonzero header total (999). -/
def c10_file : sp_file :=
  { open_ok := true
    file_header := some ⟨0, 4, 0, 1, 0, 0⟩
    string_table_seek_ok := true
    string_table := some ex_tab
    func_header := fun i => if i = 0 then some ⟨0, 2, 0, 1, 0, 0⟩ else none
    flat_seek_ok := fun _ => true
    flat_rec := fun _ _ => none
    inline_hdr_seek_ok := fun _ _ => true
    inline_hdr := fun i k => if i = 0 ∧ k = 0 then some ⟨0, 2, 0, 0, 3, 999⟩ else none
    stack_seek_ok := fun _ _ => true
    stack_entries := fun _ _ => none
    inline_rec_seek_ok := fun _ _ => true
    inline_rec := fun _ _ _ => none }

/-! ## Helper lemmas -/

/-- The reader's max update `if freq > max then freq else max` is `max`. -/
theorem upd_max_eq (m v : Nat) : (if v > m then v else m) = max m v := by
  rw [Nat.max_def]; split_ifs <;> omega

/-- Comparing via `stacks_eq n` on two stacks of length `n` is list equality. -/
theorem stacks_eq_iff : ∀ (n : Nat) (as bs : List (List Char × Nat)),
    as.length = n → bs.length = n → (stacks_eq n as bs = true ↔ as = bs) := by
  intro n
  induction n with
  | zero =>
    intro as bs ha hb
    rw [List.length_eq_zero.mp ha, List.length_eq_zero.mp hb]
    simp [stacks_eq]
  | succ n ihn =>
    intro as bs ha hb
    cases as with
    | nil => simp at ha
    | cons a as' =>
      cases bs with
      | nil => simp at hb
      | cons b bs' =>
        simp only [List.length_cons, Nat.succ.injEq] at ha hb
        simp only [stacks_eq, Bool.and_eq_true, beq_iff_eq, List.cons.injEq]
        rw [ihn as' bs' ha hb]
        constructor
        · rintro ⟨⟨h2, h1⟩, h3⟩
          exact ⟨Prod.ext h1 h2, h3⟩
        · rintro ⟨h12, h3⟩
          exact ⟨⟨congrArg Prod.snd h12, congrArg Prod.fst h12⟩, h3⟩

/-- Membership in `first_occurrences`. -/
theorem mem_first_occurrences {α : Type} [DecidableEq α] (a : α) :
    ∀ (l seen : List α), a ∈ first_occurrences seen l ↔ (a ∈ l ∧ a ∉ seen) := by
  intro l
  induction l with
  | nil => intro seen; simp [first_occurrences]
  | cons x xs ihx =>
    intro seen
    by_cases hx : x ∈ seen
    · rw [first_occurrences, if_pos hx, ihx seen]
      by_cases hax : a = x
      · subst hax; simp [hx]
      · simp [hax]
    · rw [first_occurrences, if_neg hx]
      by_cases hax : a = x
      · subst hax
        simp [hx]
      · simp only [List.mem_cons, hax, false_or]
        rw [ihx (x :: seen)]
        simp [hax]

/-- Lists built by `first_occurrences` have no duplicates. -/
theorem first_occurrences_nodup {α : Type} [DecidableEq α] :
    ∀ (l seen : List α), (first_occurrences seen l).Nodup := by
  intro l
  induction l with
  | nil => intro seen; simp [first_occurrences]
  | cons x xs ihx =>
    intro seen
    by_cases hx : x ∈ seen
    · rw [first_occurrences, if_pos hx]; exact ihx seen
    · rw [first_occurrences, if_neg hx]
      refine List.nodup_cons.mpr ⟨?_, ihx (x :: seen)⟩
      intro hmem
      exact ((mem_first_occurrences x xs (x :: seen)).mp hmem).2 (List.mem_cons_self x seen)

/-! ## Claims -/

/-- C5 (code_bug): the inline-call-stack reconstruction of
`sp_get_inline_stack` walks the enclosing scopes, skipping scopes without
a source location and consecutive duplicate locations, and writes every
recorded frame into the caller's fixed 200-entry array with NO bounds
check; on a chain of 201 located scopes it records
`FB_INLINE_MAX_STACK + 1 = 201` frames — i.e. the C loop performs a write
at index 200, past the end of the array — and the only guard,
`gcc_assert (inline_stack_depth < FB_INLINE_MAX_STACK)` in
`sp_annotate_bb`, is evaluated only AFTER the walk has returned.  So the
code does not abort before writing past the fixed-size stack array, as
the claim states. -/
theorem c5_stack_overflow_unchecked :
    (sp_get_inline_stack ex_expand true c5_locs).length = FB_INLINE_MAX_STACK + 1 ∧
    FB_INLINE_MAX_STACK < (sp_get_inline_stack ex_expand true c5_locs).length := by
  constructor <;> decide

/-- C6 (confirmed): the `depth` on-disk (filename-offset, line) frames of
an inline group are stored leaf-last on disk and materialized leaf-first
in memory: the in-memory stack buffer has length `depth`, and in-memory
position `depth - 1 - i` holds the resolved on-disk frame `i` for every
`i < depth` (`stack_buf[inline_depth - i - 1] = stack_entry[i]`). -/
theorem c6_stack_order (tab : List Char) (d : Nat)
    (es : List fb_info_inline_stack_entry) (_hlen : es.length = d)
    (i : Nat) (hi : i < d) (e : fb_info_inline_stack_entry)
    (he : es[i]? = some e) :
    (materialize_stack tab d es).length = d ∧
    (materialize_stack tab d es)[d - 1 - i]? =
      some (resolve tab e.filename_offset, e.line_num) := by
  constructor
  · simp [materialize_stack]
  · have h1 : d - 1 - i < d := by omega
    have h2 : d - 1 - (d - 1 - i) = i := by omega
    have h3 : es.getD i ⟨0, 0⟩ = e := by
      rw [List.getD_eq_getElem?_getD, he]; rfl
    simp [materialize_stack, List.getElem?_map, List.getElem?_range h1, h2, h3, he]

/-- C6 witness: frame 0 of `c6_entries` lands at in-memory position 1. -/
theorem c6_stack_order_witness :
    (materialize_stack ex_tab 2 c6_entries).length = 2 ∧
    (materialize_stack ex_tab 2 c6_entries)[1]? = some (['f'], 10) :=
  c6_stack_order ex_tab 2 c6_entries (by decide) 0 (by decide) ⟨0, 10⟩ (by decide)

/-- C7 (confirmed): in both indices, inserting a record whose key is
already present leaves the table unchanged (the stored, first-inserted
value is retained and still found afterwards) and merely reports the
collision; concretely, reading `c7_file` — whose two flat records share a
key — completes normally, keeps the first record (freq 7, not 50) and
counts 1 sample: duplicates are never fatal. -/
theorem c7_first_insert_wins :
    (∀ (tab : List sample_freq_detail) (x y : sample_freq_detail),
        htab_find sp_info_eq tab x = some y →
          htab_insert_if_absent sp_info_eq tab x = (tab, true) ∧
          htab_find sp_info_eq (htab_insert_if_absent sp_info_eq tab x).1 x = some y) ∧
    (∀ (tab : List sample_inline_freq) (x y : sample_inline_freq),
        htab_find sp_inline_info_eq tab x = some y →
          htab_insert_if_absent sp_inline_info_eq tab x = (tab, true) ∧
          htab_find sp_inline_info_eq (htab_insert_if_absent sp_inline_info_eq tab x).1 x = some y) ∧
    (sp_reader c7_file).1.sp_htab = [c7_first] ∧ (sp_reader c7_file).2 = 1 := by
  refine ⟨?_, ?_, by decide, by decide⟩
  · intro tab x y h
    unfold htab_insert_if_absent
    rw [h]
    exact ⟨rfl, h⟩
  · intro tab x y h
    unfold htab_insert_if_absent
    rw [h]
    exact ⟨rfl, h⟩

/-- C7 witness: inserting a second record with the key of `c7_first`
leaves the flat table unchanged and reports the collision. -/
theorem c7_first_insert_wins_witness :
    htab_insert_if_absent sp_info_eq [c7_first] ⟨['a'], ['f'], 5, 50, 9⟩ =
      ([c7_first], true) :=
  (c7_first_insert_wins.1 [c7_first] ⟨['a'], ['f'], 5, 50, 9⟩ c7_first (by decide)).1

/-- C8 (confirmed): two inline keys are equal under `sp_inline_info_eq`
exactly when the call-stack depths are equal, the stacks match framewise,
and the leaf (filename, function name, line) matches; consequently two
records sharing (file, function, line) but differing in stack depth or in
any frame are distinct index entries. -/
theorem c8_inline_key_eq (a b : sample_inline_freq)
    (ha : a.inline_stack.length = a.depth) (hb : b.inline_stack.length = b.depth) :
    (sp_inline_info_eq a b = true ↔
      (a.depth = b.depth ∧ a.inline_stack = b.inline_stack ∧
        a.filename = b.filename ∧ a.func_name = b.func_name ∧
        a.line_num = b.line_num)) ∧
    ((a.depth ≠ b.depth ∨ a.inline_stack ≠ b.inline_stack) →
      sp_inline_info_eq a b = false) := by
  have hiff : sp_inline_info_eq a b = true ↔
      (a.depth = b.depth ∧ a.inline_stack = b.inline_stack ∧
        a.filename = b.filename ∧ a.func_name = b.func_name ∧
        a.line_num = b.line_num) := by
    unfold sp_inline_info_eq
    simp only [Bool.and_eq_true, beq_iff_eq]
    constructor
    · rintro ⟨⟨⟨⟨h1, h2⟩, h3⟩, h4⟩, h5⟩
      have hb' : b.inline_stack.length = a.depth := by rw [hb, h2]
      exact ⟨h2, (stacks_eq_iff a.depth _ _ ha hb').mp h3, h4, h5, h1⟩
    · rintro ⟨h2, h3, h4, h5, h1⟩
      have hb' : b.inline_stack.length = a.depth := by rw [hb, h2]
      exact ⟨⟨⟨⟨h1, h2⟩, (stacks_eq_iff a.depth _ _ ha hb').mpr h3⟩, h4⟩, h5⟩
  refine ⟨hiff, ?_⟩
  intro h
  cases heq : sp_inline_info_eq a b
  · rfl
  · exfalso
    obtain ⟨h2, h3, -⟩ := hiff.mp heq
    tauto

/-- C8 witness: `c8_a` and `c8_b` share the leaf (file, function, line)
but differ in call-stack depth, so they are distinct index entries. -/
theorem c8_inline_key_eq_witness : sp_inline_info_eq c8_a c8_b = false :=
  (c8_inline_key_eq c8_a c8_b (by decide) (by decide)).2 (Or.inl (by decide))

/-- C10 (confirmed): an inline group whose per-line record count is zero
is skipped entirely (`continue`): processing that group changes neither
the inline index nor the sample count, regardless of the total recorded
in its header, and the loop moves on to the next group. -/
theorem c10_empty_group_skipped (f : sp_file) (tab : List Char) (i k rem : Nat)
    (st : sp_state) (curr : Nat) (ih : func_sample_hdr)
    (hseek : f.inline_hdr_seek_ok i k = true)
    (hhdr : f.inline_hdr i k = some ih)
    (hzero : ih.func_num_freq_entries = 0) :
    read_inline_function f tab i k (rem + 1) st curr =
      read_inline_function f tab i (k + 1) rem st curr := by
  rw [read_inline_function, hhdr]
  simp [hseek, hzero]

/-- C10 witness: `c10_file`'s one inline group has zero per-line records
and header total 999; processing it leaves the state untouched. -/
theorem c10_empty_group_skipped_witness :
    read_inline_function c10_file ex_tab 0 0 1 init_state 0 = (init_state, 0) := by
  rw [c10_empty_group_skipped c10_file ex_tab 0 0 0 init_state 0 ⟨0, 2, 0, 0, 3, 999⟩
    rfl (by decide) rfl]
  rfl

/-- Per-line inline records with index `j ≠ 0` are never flagged as
stack-buffer owner. -/
theorem group_line_records_not_first (tab : List Char) (ih : func_sample_hdr)
    (sb : List (List Char × Nat)) :
    ∀ (ss : List fb_info_freq) (j : Nat), j ≠ 0 →
      (group_line_records tab ih sb j ss).countP (fun r => r.is_first) = 0 := by
  intro ss
  induction ss with
  | nil => intro j hj; simp [group_line_records]
  | cons s ss ihs =>
    intro j hj
    have hj' : (j == 0) = false := by simpa using hj
    rw [group_line_records, List.countP_cons]
    simp [inline_line_record, hj', ihs (j + 1) (by omega)]

/-- C1 counterexample: a function with exactly 1 of 3 total basic blocks
annotated (one real block with count 7, plus the artificial ENTRY and
EXIT blocks making `n_basic_blocks = 3 < 5`) is ACCEPTED by
`sp_annotate_cfg` — the profile is deemed usable and the count is kept —
whereas the claim states such a function is rejected with all counts
reset to 0. -/
theorem c1_three_block_function_accepted :
    sp_annotate_cfg ex_expand ['f'] c1_flat [] [[c1_stmt]] = ([7], true) := by
  decide

/-- C1 amended (corrected): the profile is deemed usable exactly when more
than one basic block received a nonzero count, or exactly one block did
and `n_basic_blocks` — the block count INCLUDING the two artificial
ENTRY/EXIT blocks, i.e. real blocks + 2 — is less than 5; when not
usable, every block's count is reset to 0.  A function with exactly 1 of
3 total blocks annotated is accepted (not rejected), as is one with 1 of
4; with 5 total blocks (3 real), a single annotated block is rejected and
all counts are reset to 0. -/
theorem c1_usability_amended :
    (∀ counts : List Nat,
       ((sp_annotate_cfg_decide counts).2 = true ↔
         (1 < (counts.filter (fun c => c ≠ 0)).length ∨
           ((counts.filter (fun c => c ≠ 0)).length = 1 ∧ counts.length + 2 < 5))) ∧
       ((sp_annotate_cfg_decide counts).2 = false →
         (sp_annotate_cfg_decide counts).1 = counts.map (fun _ => 0)) ∧
       ((sp_annotate_cfg_decide counts).2 = true →
         (sp_annotate_cfg_decide counts).1 = counts)) ∧
    (∀ (expand : Nat → List Char × Nat) (fn : List Char)
       (ft : List sample_freq_detail) (it : List sample_inline_freq)
       (bbs : List (List gimple_stmt)),
       sp_annotate_cfg expand fn ft it bbs =
         sp_annotate_cfg_decide (bbs.map (sp_annotate_bb expand fn ft it))) ∧
    sp_annotate_cfg ex_expand ['f'] c1_flat [] [[c1_stmt], []] = ([7, 0], true) ∧
    sp_annotate_cfg ex_expand ['f'] c1_flat [] [[c1_stmt], [], []] = ([0, 0, 0], false) := by
  refine ⟨?_, fun _ _ _ _ _ => rfl, by decide, by decide⟩
  intro counts
  simp only [sp_annotate_cfg_decide, MIN_SAMPLE_BB_COUNT]
  rw [List.countP_eq_length_filter]
  by_cases h : (1 < (counts.filter (fun c => decide (c ≠ 0))).length ∨
      ((counts.filter (fun c => decide (c ≠ 0))).length = 1 ∧ counts.length + 2 < 5))
  · rw [if_pos h]
    exact ⟨by simpa using h, by simp, by simp⟩
  · rw [if_neg h]
    exact ⟨by simpa using h, by simp, by simp⟩

/-- C1 amended witness: a function whose counts are `[7, 0, 0]`
(1 of 5 total blocks annotated) is rejected and reset to all zeros. -/
theorem c1_usability_amended_witness :
    (sp_annotate_cfg_decide [7, 0, 0]).1 = [0, 0, 0] :=
  ((c1_usability_amended.1 [7, 0, 0]).2.1 (by decide))

/-- C4 counterexample: running the reader on `c4_file` (one inline group,
one per-line record, group total 10) puts two records in the inline
index; the synthetic callsite-total record (`line_num = 0`,
`freq = total_samples = 10`) has `is_first = false` — it is NOT the
designated owner of the shared call-stack buffer — while the first
per-line record is the one flagged (`is_first = true`), contradicting the
claim that the owner is the synthetic callsite-total record. -/
theorem c4_owner_not_total_record :
    (sp_reader c4_file).1.sp_inline_htab = [c4_total, c4_line] ∧
    c4_total.line_num = 0 ∧ c4_total.freq = 10 ∧ c4_total.is_first = false ∧
    c4_line.is_first = true := by
  exact ⟨by decide, rfl, rfl, rfl, rfl⟩

/-- C4 amended (corrected): among the `num_lines + 1` records of an
inline group that share the group's call-stack buffer (the per-line
records plus the synthetic callsite-total record), exactly one is
designated owner (`is_first`), and that owner is the FIRST PER-LINE
record (index `j = 0`); the synthetic callsite-total record — line 0,
frequency equal to the group total — is never the owner. -/
theorem c4_owner_amended (tab : List Char) (ih : func_sample_hdr)
    (sb : List (List Char × Nat)) (s : fb_info_freq) (ss : List fb_info_freq) :
    (group_buf_records tab ih sb (s :: ss)).countP (fun r => r.is_first) = 1 ∧
    (inline_total_record tab ih sb).is_first = false ∧
    (inline_total_record tab ih sb).line_num = 0 ∧
    (inline_total_record tab ih sb).freq = ih.total_samples ∧
    (inline_line_record tab ih sb 0 s).is_first = true ∧
    (∀ (j : Nat) (sj : fb_info_freq), j ≠ 0 →
      (inline_line_record tab ih sb j sj).is_first = false) := by
  refine ⟨?_, rfl, rfl, rfl, rfl, ?_⟩
  · rw [group_buf_records, group_line_records, List.countP_cons, List.countP_cons]
    rw [group_line_records_not_first tab ih sb ss 1 (by omega)]
    simp [inline_total_record, inline_line_record]
  · intro j sj hj
    have hj' : (j == 0) = false := by simpa using hj
    simp [inline_line_record, hj']

/-- C4 amended witness: a concrete one-record group has exactly one
owner-flagged record, and a per-line record with index 1 is not flagged. -/
theorem c4_owner_amended_witness :
    (group_buf_records ex_tab ⟨0, 2, 1, 0, 1, 10⟩ [(['a'], 4)]
        [⟨3, 7, 2⟩]).countP (fun r => r.is_first) = 1 ∧
    (inline_line_record ex_tab ⟨0, 2, 1, 0, 1, 10⟩ [(['a'], 4)] 1 ⟨9, 9, 9⟩).is_first = false :=
  ⟨(c4_owner_amended ex_tab ⟨0, 2, 1, 0, 1, 10⟩ [(['a'], 4)] ⟨3, 7, 2⟩ []).1,
   (c4_owner_amended ex_tab ⟨0, 2, 1, 0, 1, 10⟩ [(['a'], 4)] ⟨3, 7, 2⟩ []).2.2.2.2.2
     1 ⟨9, 9, 9⟩ (by omega)⟩

/-- The statement loop of `sp_annotate_bb` accumulates exactly the sums of
frequencies and instruction counts over the first occurrences of the
statements' matched records (`seen` ↔ the `lines` / `lines_inline` dedup
arrays of the accumulator). -/
theorem annotate_fold_spec (expand : Nat → List Char × Nat) (fn : List Char)
    (ft : List sample_freq_detail) (it : List sample_inline_freq) :
    ∀ (stmts : List gimple_stmt) (acc : bb_accum)
      (seen : List (sample_freq_detail ⊕ sample_inline_freq)),
      (∀ r : sample_freq_detail, Sum.inl r ∈ seen ↔ r ∈ acc.lines) →
      (∀ r : sample_inline_freq, Sum.inr r ∈ seen ↔ r ∈ acc.lines_inline) →
      ((stmts.foldl (sp_annotate_bb_step expand fn ft it) acc).sum_ir_count
          = acc.sum_ir_count +
            ((first_occurrences seen (stmts.filterMap (bb_match expand fn ft it))).map
              match_freq).sum ∧
       (stmts.foldl (sp_annotate_bb_step expand fn ft it) acc).num_instr_sampled
          = acc.num_instr_sampled +
            ((first_occurrences seen (stmts.filterMap (bb_match expand fn ft it))).map
              match_instr).sum) := by
  intro stmts
  induction stmts with
  | nil =>
    intro acc seen h1 h2
    simp [first_occurrences]
  | cons s rest IH =>
    intro acc seen h1 h2
    rw [List.foldl_cons]
    by_cases hl : s.lineno = -1
    · have hstep : sp_annotate_bb_step expand fn ft it acc s = acc := by
        simp [sp_annotate_bb_step, hl]
      have hm : bb_match expand fn ft it s = none := by
        simp [bb_match, hl]
      rw [hstep, List.filterMap_cons_none hm]
      exact IH acc seen h1 h2
    · by_cases hd : 0 < (sp_get_inline_stack expand s.has_block s.scope_locs).length
      · cases hfind : htab_find sp_inline_info_eq it
            (inline_lookup_key (sp_get_inline_stack expand s.has_block s.scope_locs) fn s) with
        | none =>
          have hstep : sp_annotate_bb_step expand fn ft it acc s
              = { acc with num_ir := acc.num_ir + 1 } := by
            simp [sp_annotate_bb_step, hl, hd, hfind]
          have hm : bb_match expand fn ft it s = none := by
            simp [bb_match, hl, hd, hfind]
          rw [hstep, List.filterMap_cons_none hm]
          exact IH _ seen (fun r => h1 r) (fun r => h2 r)
        | some e =>
          have hm : bb_match expand fn ft it s = some (Sum.inr e) := by
            simp [bb_match, hl, hd, hfind]
          rw [List.filterMap_cons_some hm]
          by_cases hmem : e ∈ acc.lines_inline
          · have hstep : sp_annotate_bb_step expand fn ft it acc s
                = { acc with num_ir := acc.num_ir + 1 } := by
              simp [sp_annotate_bb_step, hl, hd, hfind, hmem]
            rw [hstep]
            have hseen : Sum.inr e ∈ seen := (h2 e).mpr hmem
            simp only [first_occurrences, if_pos hseen]
            exact IH _ seen (fun r => h1 r) (fun r => h2 r)
          · have hstep : sp_annotate_bb_step expand fn ft it acc s
                = { acc with
                      num_ir := acc.num_ir + 1
                      lines_inline := acc.lines_inline ++ [e]
                      sum_ir_count := acc.sum_ir_count + e.freq
                      num_instr_sampled := acc.num_instr_sampled + e.num_instr
                      bb_max_count := max acc.bb_max_count e.freq } := by
              simp [sp_annotate_bb_step, hl, hd, hfind, hmem]
            rw [hstep]
            have hseen : Sum.inr e ∉ seen := fun hmm => hmem ((h2 e).mp hmm)
            simp only [first_occurrences, if_neg hseen]
            obtain ⟨ihs, ihi⟩ := IH
              { acc with
                  num_ir := acc.num_ir + 1
                  lines_inline := acc.lines_inline ++ [e]
                  sum_ir_count := acc.sum_ir_count + e.freq
                  num_instr_sampled := acc.num_instr_sampled + e.num_instr
                  bb_max_count := max acc.bb_max_count e.freq }
              (Sum.inr e :: seen)
              (fun r => by rw [List.mem_cons, h1 r]; simp)
              (fun r => by
                rw [List.mem_cons, h2 r]
                simp only [List.mem_append, List.mem_singleton, Sum.inr.injEq]
                tauto)
            rw [ihs, ihi]
            simp only [List.map_cons, List.sum_cons, match_freq, match_instr]
            constructor <;> omega
      · cases hfind : htab_find sp_info_eq ft (flat_lookup_key fn s) with
        | none =>
          have hstep : sp_annotate_bb_step expand fn ft it acc s
              = { acc with num_ir := acc.num_ir + 1 } := by
            simp [sp_annotate_bb_step, hl, hd, hfind]
          have hm : bb_match expand fn ft it s = none := by
            simp [bb_match, hl, hd, hfind]
          rw [hstep, List.filterMap_cons_none hm]
          exact IH _ seen (fun r => h1 r) (fun r => h2 r)
        | some e =>
          have hm : bb_match expand fn ft it s = some (Sum.inl e) := by
            simp [bb_match, hl, hd, hfind]
          rw [List.filterMap_cons_some hm]
          by_cases hmem : e ∈ acc.lines
          · have hstep : sp_annotate_bb_step expand fn ft it acc s
                = { acc with num_ir := acc.num_ir + 1 } := by
              simp [sp_annotate_bb_step, hl, hd, hfind, hmem]
            rw [hstep]
            have hseen : Sum.inl e ∈ seen := (h1 e).mpr hmem
            simp only [first_occurrences, if_pos hseen]
            exact IH _ seen (fun r => h1 r) (fun r => h2 r)
          · have hstep : sp_annotate_bb_step expand fn ft it acc s
                = { acc with
                      num_ir := acc.num_ir + 1
                      lines := acc.lines ++ [e]
                      sum_ir_count := acc.sum_ir_count + e.freq
                      num_instr_sampled := acc.num_instr_sampled + e.num_instr
                      bb_max_count := max acc.bb_max_count e.freq } := by
              simp [sp_annotate_bb_step, hl, hd, hfind, hmem]
            rw [hstep]
            have hseen : Sum.inl e ∉ seen := fun hmm => hmem ((h1 e).mp hmm)
            simp only [first_occurrences, if_neg hseen]
            obtain ⟨ihs, ihi⟩ := IH
              { acc with
                  num_ir := acc.num_ir + 1
                  lines := acc.lines ++ [e]
                  sum_ir_count := acc.sum_ir_count + e.freq
                  num_instr_sampled := acc.num_instr_sampled + e.num_instr
                  bb_max_count := max acc.bb_max_count e.freq }
              (Sum.inl e :: seen)
              (fun r => by
                rw [List.mem_cons, h1 r]
                simp only [List.mem_append, List.mem_singleton, Sum.inl.injEq]
                tauto)
              (fun r => by rw [List.mem_cons, h2 r]; simp)
            rw [ihs, ihi]
            simp only [List.map_cons, List.sum_cons, match_freq, match_instr]
            constructor <;> omega

/-- C2 (confirmed): the derived execution count of a basic block equals
the sum of frequencies of the DISTINCT matched sample records divided by
the sum of their sampled-instruction counts when that sum is nonzero, and
0 otherwise; a record already counted for the block is skipped even when
several statements of the block map to it (the distinct-match list is
duplicate-free yet contains every matched record).  Concretely, a block
matching records {freq 10, instr 2} and {freq 30, instr 3} (one of them
through two statements) yields (10+30)/(2+3) = 8, and a block with zero
matched instructions yields 0. -/
theorem c2_block_count :
    (∀ (expand : Nat → List Char × Nat) (fn : List Char)
       (ft : List sample_freq_detail) (it : List sample_inline_freq)
       (stmts : List gimple_stmt),
       (first_occurrences [] (stmts.filterMap (bb_match expand fn ft it))).Nodup ∧
       (∀ m, m ∈ first_occurrences [] (stmts.filterMap (bb_match expand fn ft it)) ↔
          m ∈ stmts.filterMap (bb_match expand fn ft it)) ∧
       sp_annotate_bb expand fn ft it stmts =
         (if ((first_occurrences [] (stmts.filterMap (bb_match expand fn ft it))).map
                match_instr).sum ≠ 0
          then ((first_occurrences [] (stmts.filterMap (bb_match expand fn ft it))).map
                  match_freq).sum /
               ((first_occurrences [] (stmts.filterMap (bb_match expand fn ft it))).map
                  match_instr).sum
          else 0)) ∧
    sp_annotate_bb ex_expand ['f'] c2_flat [] c2_stmts = 8 ∧
    sp_annotate_bb ex_expand ['f'] c2_flat [] c2_stmts_none = 0 := by
  refine ⟨?_, by decide, by decide⟩
  intro expand fn ft it stmts
  refine ⟨first_occurrences_nodup _ _, ?_, ?_⟩
  · intro m
    rw [mem_first_occurrences]
    simp
  · obtain ⟨hs, hi⟩ := annotate_fold_spec expand fn ft it stmts bb_accum.init []
      (fun r => by simp [bb_accum.init]) (fun r => by simp [bb_accum.init])
    simp only [sp_annotate_bb]
    rw [hs, hi]
    simp only [bb_accum.init, Nat.zero_add]
    rcases Nat.eq_zero_or_pos ((first_occurrences []
        (stmts.filterMap (bb_match expand fn ft it))).map match_instr).sum with hz | hz
    · simp [hz]
    · simp [hz, Nat.pos_iff_ne_zero.mp hz]

/-- Loop `read_flat_lines` tracks `sp_max_count` as the running max over
exactly the freqs `flat_freqs` collects (which never consults the index,
so duplicate-keyed records contribute), and its success flag matches. -/
theorem read_flat_lines_spec (f : sp_file) (tab : List Char) (i : Nat)
    (fh : func_sample_hdr) :
    ∀ (rem j : Nat) (st : sp_state) (ns : Nat),
      (read_flat_lines f tab i fh j rem st ns).1.sp_max_count
          = List.foldl max st.sp_max_count (flat_freqs f i j rem).1 ∧
      (read_flat_lines f tab i fh j rem st ns).2.2 = (flat_freqs f i j rem).2 := by
  intro rem
  induction rem with
  | zero =>
    intro j st ns
    simp [read_flat_lines, flat_freqs]
  | succ rem IH =>
    intro j st ns
    cases hr : f.flat_rec i j with
    | none => simp [read_flat_lines, flat_freqs, hr]
    | some s =>
      simp only [read_flat_lines, flat_freqs, hr]
      refine ⟨?_, ?_⟩
      · rw [(IH (j + 1) _ _).1]
        simp [upd_max_eq]
      · exact (IH (j + 1) _ _).2

/-- Loop `read_group_lines` tracks `sp_max_count` as the running max over
exactly the freqs `group_freqs` collects, and its success flag matches. -/
theorem read_group_lines_spec (f : sp_file) (tab : List Char) (i k : Nat)
    (ih : func_sample_hdr) (sb : List (List Char × Nat)) :
    ∀ (rem j : Nat) (st : sp_state) (curr : Nat),
      (read_group_lines f tab i k ih sb j rem st curr).1.sp_max_count
          = List.foldl max st.sp_max_count (group_freqs f i k j rem).1 ∧
      (read_group_lines f tab i k ih sb j rem st curr).2.2 = (group_freqs f i k j rem).2 := by
  intro rem
  induction rem with
  | zero =>
    intro j st curr
    simp [read_group_lines, group_freqs]
  | succ rem IH =>
    intro j st curr
    cases hr : f.inline_rec i k j with
    | none => simp [read_group_lines, group_freqs, hr]
    | some s =>
      simp only [read_group_lines, group_freqs, hr]
      refine ⟨?_, ?_⟩
      · rw [(IH (j + 1) _ _).1]
        simp [upd_max_eq]
      · exact (IH (j + 1) _ _).2

/-- Loop `read_inline_function` tracks `sp_max_count` as the running max over
exactly the per-line freqs `inline_freqs` collects; the synthetic total
insertion never touches it. -/
theorem read_inline_function_max (f : sp_file) (tab : List Char) (i : Nat) :
    ∀ (rem k : Nat) (st : sp_state) (curr : Nat),
      (read_inline_function f tab i k rem st curr).1.sp_max_count
        = List.foldl max st.sp_max_count (inline_freqs f i k rem) := by
  intro rem
  induction rem with
  | zero =>
    intro k st curr
    simp [read_inline_function, inline_freqs]
  | succ rem IH =>
    intro k st curr
    by_cases h1 : f.inline_hdr_seek_ok i k
    · cases h2 : f.inline_hdr i k with
      | none => simp [read_inline_function, inline_freqs, h1, h2]
      | some ih =>
        by_cases h3 : ih.func_num_freq_entries = 0
        · simp only [read_inline_function, inline_freqs, h1, h2, h3, if_true, ite_true]
          exact IH (k + 1) st curr
        · by_cases h4 : f.stack_seek_ok i k
          · cases h5 : f.stack_entries i k with
            | none => simp [read_inline_function, inline_freqs, h1, h2, h3, h4, h5]
            | some es =>
              by_cases h6 : es.length = ih.inline_depth
              · by_cases h7 : f.inline_rec_seek_ok i k
                · simp only [read_inline_function, inline_freqs, h1, h2, h3, h4, h5, h6, h7,
                    if_true, if_false, ite_true, ite_false]
                  have hgm := read_group_lines_spec f tab i k ih
                    (materialize_stack tab ih.inline_depth es) ih.func_num_freq_entries 0
                    { st with sp_inline_htab := (htab_insert_if_absent sp_inline_info_eq
                        st.sp_inline_htab (inline_total_record tab ih
                          (materialize_stack tab ih.inline_depth es))).1 } curr
                  cases hq : (group_freqs f i k 0 ih.func_num_freq_entries).2 with
                  | false => simp [hgm.1, hgm.2, hq]
                  | true => simp [hgm.1, hgm.2, hq, IH, List.foldl_append]
                · simp [read_inline_function, inline_freqs, h1, h2, h3, h4, h5, h6, h7]
              · simp [read_inline_function, inline_freqs, h1, h2, h3, h4, h5, h6]
          · simp [read_inline_function, inline_freqs, h1, h2, h3, h4]
    · simp [read_inline_function, inline_freqs, h1]

/-- The per-function loop tracks `sp_max_count` as the running max over
exactly the freqs `func_freqs` collects. -/
theorem sp_reader_funcs_max (f : sp_file) (tab : List Char) :
    ∀ (rem i : Nat) (st : sp_state) (ns : Nat),
      (sp_reader_funcs f tab i rem st ns).1.sp_max_count
        = List.foldl max st.sp_max_count (func_freqs f i rem) := by
  intro rem
  induction rem with
  | zero =>
    intro i st ns
    simp [sp_reader_funcs, func_freqs]
  | succ rem IH =>
    intro i st ns
    cases hh : f.func_header i with
    | none => simp [sp_reader_funcs, func_freqs, hh]
    | some fh =>
      by_cases hs : f.flat_seek_ok i
      · have hfl := read_flat_lines_spec f tab i fh fh.func_num_freq_entries 0 st ns
        cases hq : (flat_freqs f i 0 fh.func_num_freq_entries).2 with
        | false =>
          simp [sp_reader_funcs, func_freqs, hh, hs, hfl.1, hfl.2, hq]
        | true =>
          by_cases hn : fh.func_num_inline_entries > 0
          · simp [sp_reader_funcs, func_freqs, hh, hs, hfl.1, hfl.2, hq, hn, IH,
              read_inline_function_max f tab i, List.foldl_append]
          · simp [sp_reader_funcs, func_freqs, hh, hs, hfl.1, hfl.2, hq, hn, IH,
              List.foldl_append]
      · simp [sp_reader_funcs, func_freqs, hh, hs]

/-- C9 (confirmed): the global maximum `sp_max_count` — published as the
Profile Summary's `sum_max` when a function is successfully annotated —
equals the max over EVERY per-line record read from the file (flat and
inline), along exactly the reader's control flow and independently of the
index state, so duplicate-keyed records whose values are discarded by
first-insert-wins still contribute (the max update precedes the duplicate
check), while synthetic callsite-total records (line 0) never contribute.
Concretely, on `c9_file` the duplicate flat record (freq 50) sets the max
to 50 although the table keeps the first record (freq 7), and the group
total 999 is not taken up. -/
theorem c9_global_max :
    (∀ f : sp_file, (sp_reader f).1.sp_max_count = List.foldl max 0 (sp_file_freqs f)) ∧
    (sp_reader c9_file).1.sp_max_count = 50 ∧
    (sp_reader c9_file).1.sp_htab = [c9_first] ∧
    c9_total ∈ (sp_reader c9_file).1.sp_inline_htab ∧
    c9_total.freq = 999 := by
  refine ⟨?_, by decide, by decide, by decide, rfl⟩
  intro f
  by_cases ho : f.open_ok
  · cases hh : f.file_header with
    | none => simp [sp_reader, sp_file_freqs, ho, hh, init_state]
    | some hdr =>
      by_cases hs : f.string_table_seek_ok
      · cases htb : f.string_table with
        | none => simp [sp_reader, sp_file_freqs, ho, hh, hs, htb, init_state]
        | some tb =>
          by_cases hl : tb.length = hdr.fb_str_table_size
          · simp only [sp_reader, sp_file_freqs, ho, hh, hs, htb, hl, if_true, ite_true]
            rw [sp_reader_funcs_max f tb hdr.fb_func_hdr_num 0 init_state 0]
            rfl
          · simp [sp_reader, sp_file_freqs, ho, hh, hs, htb, hl, init_state]
      · simp [sp_reader, sp_file_freqs, ho, hh, hs, init_state]
  · simp [sp_reader, sp_file_freqs, ho, init_state]

/-- C3 counterexample: on `c3_file` the reader reads one flat sample of
its only function, then hits an I/O error (failed seek) at the function's
inline-group header — and returns 1, not 0: an I/O error while reading
inline sections does NOT abort the entire read and does NOT yield zero
usable samples (`read_inline_function` returns the count accumulated so
far and `sp_reader` carries on), contradicting the claim that any I/O
error at any step yields zero usable samples. -/
theorem c3_inline_error_keeps_samples :
    c3_file.func_header 0 = some c3_fh ∧
    c3_fh.func_num_inline_entries = 1 ∧
    c3_file.inline_hdr_seek_ok 0 0 = false ∧
    (sp_reader c3_file).2 = 1 := by
  exact ⟨by decide, rfl, rfl, by decide⟩

/-- C3 amended (corrected): an I/O error in the top-level read — open,
file header, string-table seek/read, a function header, the flat-record
seek, or a flat-record read — aborts the read with zero usable samples;
but an I/O error while reading a function's inline sections only abandons
the remaining inline data of that function, KEEPS the samples already
counted, and the reader continues with the remaining functions, so the
run can end with a nonzero sample count (as on `c3_file`). -/
theorem c3_error_policy_amended :
    (∀ f : sp_file, f.open_ok = false → sp_reader f = (init_state, 0)) ∧
    (∀ f : sp_file, f.file_header = none → sp_reader f = (init_state, 0)) ∧
    (∀ f : sp_file, f.string_table_seek_ok = false → sp_reader f = (init_state, 0)) ∧
    (∀ f : sp_file, f.string_table = none → sp_reader f = (init_state, 0)) ∧
    (∀ (f : sp_file) (tab : List Char) (i rem : Nat) (st : sp_state) (ns : Nat),
       f.func_header i = none → sp_reader_funcs f tab i (rem + 1) st ns = (st, 0)) ∧
    (∀ (f : sp_file) (tab : List Char) (i rem : Nat) (st : sp_state) (ns : Nat)
       (fh : func_sample_hdr), f.func_header i = some fh → f.flat_seek_ok i = false →
       sp_reader_funcs f tab i (rem + 1) st ns = (st, 0)) ∧
    (∀ (f : sp_file) (tab : List Char) (i : Nat) (fh : func_sample_hdr)
       (j rem : Nat) (st : sp_state) (ns : Nat), f.flat_rec i j = none →
       read_flat_lines f tab i fh j (rem + 1) st ns = (st, ns, false)) ∧
    (∀ (f : sp_file) (tab : List Char) (i rem : Nat) (st : sp_state) (ns : Nat)
       (fh : func_sample_hdr), f.func_header i = some fh → f.flat_seek_ok i = true →
       (read_flat_lines f tab i fh 0 fh.func_num_freq_entries st ns).2.2 = false →
       (sp_reader_funcs f tab i (rem + 1) st ns).2 = 0) ∧
    (∀ (f : sp_file) (tab : List Char) (i k rem : Nat) (st : sp_state) (curr : Nat),
       f.inline_hdr_seek_ok i k = false →
       read_inline_function f tab i k (rem + 1) st curr = (st, curr)) ∧
    ((sp_reader c3_file).2 = 1 ∧ c3_file.inline_hdr_seek_ok 0 0 = false) := by
  refine ⟨?_, ?_, ?_, ?_, ?_, ?_, ?_, ?_, ?_, by decide, rfl⟩
  · intro f h
    simp [sp_reader, h]
  · intro f h
    by_cases ho : f.open_ok <;> simp [sp_reader, ho, h]
  · intro f h
    by_cases ho : f.open_ok
    · cases hh : f.file_header <;> simp [sp_reader, ho, hh, h]
    · simp [sp_reader, ho]
  · intro f h
    by_cases ho : f.open_ok
    · cases hh : f.file_header with
      | none => simp [sp_reader, ho, hh]
      | some hdr =>
        by_cases hs : f.string_table_seek_ok <;> simp [sp_reader, ho, hh, hs, h]
    · simp [sp_reader, ho]
  · intro f tab i rem st ns h
    simp [sp_reader_funcs, h]
  · intro f tab i rem st ns fh h1 h2
    simp [sp_reader_funcs, h1, h2]
  · intro f tab i fh j rem st ns h
    simp [read_flat_lines, h]
  · intro f tab i rem st ns fh h1 h2 h3
    simp [sp_reader_funcs, h1, h2, h3]
  · intro f tab i k rem st curr h
    simp [read_inline_function, h]

/-- C3 amended witness: a missing function header zeroes the sample
count, while a failed inline-header seek preserves it. -/
theorem c3_error_policy_amended_witness :
    sp_reader_funcs c3_file ex_tab 1 1 init_state 5 = (init_state, 0) ∧
    read_inline_function c3_file ex_tab 0 0 3 init_state 7 = (init_state, 7) :=
  ⟨c3_error_policy_amended.2.2.2.2.1 c3_file ex_tab 1 0 init_state 5 (by decide),
   c3_error_policy_amended.2.2.2.2.2.2.2.2.1 c3_file ex_tab 0 0 2 init_state 7 rfl⟩

end SP
